import Mathlib

/-!
Formal model of the langgraph-agent orchestration core.

This file shallowly embeds the TypeScript sources of the repository:

* `src/llm/gemini.client.ts` (retry-wrapped completion client),
* `src/utils/reference.formatter.ts` (`groupReferencesByFile`),
* `src/agents/rag.agent.ts` (`RAGAgent.search` candidate filtering),
* `src/tools/chart.tool.ts` (`ChartTool.execute`),
* `src/agents/delegating.agent.ts` (router node, aggregator node, the
  streaming entry point `processQueryStream`, and the non-streaming
  `processQuery` / `processQuerySync` pair),

and proves properties of the embedded definitions.  External collaborators
(the Gemini model, the Weaviate store, the image endpoint, `JSON.parse`)
are modelled as oracle inputs: one outcome per call attempt.  JavaScript
strings become `String`, JavaScript numbers in similarity scores become
`ℚ`, fallible calls become `Except String`.
-/

namespace Agent

/-! ## String helpers (JavaScript `String.prototype.includes`) -/

/-- Boolean test that `p` is a leading segment of `l` (character lists). -/
def isPrefixB : List Char → List Char → Bool
  | [], _ => true
  | _ :: _, [] => false
  | p :: ps, c :: cs => p == c && isPrefixB ps cs

/-- Boolean substring search on character lists. -/
def isInfixB (pat : List Char) : List Char → Bool
  | [] => isPrefixB pat []
  | c :: cs => isPrefixB pat (c :: cs) || isInfixB pat cs

/-- JavaScript `s.includes(pat)`. -/
def strIncludes (s pat : String) : Bool := isInfixB pat.toList s.toList

/-- JavaScript `s.toLowerCase()` (character-wise lowering). -/
def lowerStr (s : String) : String := String.mk (s.data.map Char.toLower)

/-! ## Completion client (`src/llm/gemini.client.ts`, retry variant)

The underlying model is an oracle: `invoke attempt` is the outcome of the
`attempt`-th call of `this.model.invoke(prompt)` (0-based), and
`attempts attempt` is the outcome of the `attempt`-th call of
`this.model.stream(prompt)`: the chunk contents it produced, then
`none` if the stream completed or `some msg` if it threw mid-stream.
-/

def MAX_RETRIES : Nat := 3

def BASE_DELAY_MS : Nat := 2000

/-- `isRateLimitError` from `gemini.client.ts`. -/
def isRateLimitError (msg : String) : Bool :=
  let m := lowerStr msg
  strIncludes m "429" || strIncludes m "resource has been exhausted" ||
    strIncludes m "rate limit" || strIncludes m "quota"

/-- `isDailyQuotaExhausted` from `gemini.client.ts`. -/
def isDailyQuotaExhausted (msg : String) : Bool :=
  let m := lowerStr msg
  strIncludes m "resource has been exhausted" || strIncludes m "quota"

def quotaExceededMsg : String :=
  "Gemini daily quota exceeded. The free tier resets at midnight Pacific Time. Please try again later."

def retriesExhaustedMsg : String := "Gemini request failed after retries"

deriving instance DecidableEq for Except

/-- Outcome of one run of `GeminiClient.generate`: the returned text or the
thrown message, the number of `model.invoke` calls performed, and the list
of backoff delays slept (in ms, in order). -/
structure GenRun where
  result : Except String String
  tries : Nat
  delays : List Nat

deriving Repr, DecidableEq

/-- The retry loop body of `GeminiClient.generate`.  `fuel` is the number of
loop iterations still allowed (`MAX_RETRIES + 1` at entry), `attempt` the
current 0-based attempt counter. -/
def generateLoop (invoke : Nat → Except String String) : Nat → Nat → GenRun
  | 0, _ => ⟨.error retriesExhaustedMsg, 0, []⟩
  | fuel + 1, attempt =>
    match invoke attempt with
    | .ok text => ⟨.ok text, 1, []⟩
    | .error msg =>
      if isRateLimitError msg && decide (attempt < MAX_RETRIES) then
        let rest := generateLoop invoke fuel (attempt + 1)
        ⟨rest.result, rest.tries + 1, BASE_DELAY_MS * 2 ^ attempt :: rest.delays⟩
      else
        ⟨.error (if isDailyQuotaExhausted msg then quotaExceededMsg else msg), 1, []⟩

/-- `GeminiClient.generate` (single-shot completion with retry). -/
def generate (invoke : Nat → Except String String) : GenRun :=
  generateLoop invoke (MAX_RETRIES + 1) 0

/-- Outcome of one run of `GeminiClient.generateStream`: every fragment
yielded to the caller (in order, duplicates kept), the thrown message if the
run ended by throwing (`none` when it returned normally), the number of
`model.stream` calls performed, and the backoff delays slept. -/
structure StreamRun where
  emitted : List String
  thrown : Option String
  tries : Nat
  delays : List Nat

deriving Repr, DecidableEq

/-- The retry loop body of `GeminiClient.generateStream`.  Each attempt
yields the non-empty chunk contents (`if (chunk.content)`) produced before
the attempt either completed or threw. -/
def generateStreamLoop (attempts : Nat → List String × Option String) :
    Nat → Nat → StreamRun
  | 0, _ => ⟨[], some retriesExhaustedMsg, 0, []⟩
  | fuel + 1, attempt =>
    let yields := (attempts attempt).1.filter (fun c => c != "")
    match (attempts attempt).2 with
    | none => ⟨yields, none, 1, []⟩
    | some msg =>
      if isRateLimitError msg && decide (attempt < MAX_RETRIES) then
        let rest := generateStreamLoop attempts fuel (attempt + 1)
        ⟨yields ++ rest.emitted, rest.thrown, rest.tries + 1,
          BASE_DELAY_MS * 2 ^ attempt :: rest.delays⟩
      else
        ⟨yields, some (if isDailyQuotaExhausted msg then quotaExceededMsg else msg), 1, []⟩

/-- `GeminiClient.generateStream` (streaming completion with retry). -/
def generateStream (attempts : Nat → List String × Option String) : StreamRun :=
  generateStreamLoop attempts (MAX_RETRIES + 1) 0

/-- An always-failing oracle whose message matches the quota pattern. -/
def quotaFailInvoke : Nat → Except String String :=
  fun _ => .error "quota exceeded for today"

/-- Oracle for the stream loop: the first attempt yields a fragment and then
throws a rate-limit-shaped failure; every later attempt yields the same
fragment and completes. -/
def midStreamRetryAttempts : Nat → List String × Option String :=
  fun a => if a == 0 then (["A"], some "rate limit") else (["A"], none)

/-! ## Reference grouping (`src/utils/reference.formatter.ts`) -/

/-- One surviving search candidate as consumed by `groupReferencesByFile`
(the fields it reads: `fileId`, `pageNumber`, `answer`). -/
structure RawResult where
  fileId : String
  pageNumber : List String
  answer : String

deriving Repr, DecidableEq

/-- `RAGReference` from `src/agents/types.ts`.  The constant `type: 'rag'`
tag is left implicit; the optional `content` field is modelled as a string
(`""` plays the role of the absent/empty value, which JavaScript treats the
same way under `||` and `?.includes`). -/
structure RAGReference where
  fileId : String
  displayId : String
  pages : List String
  content : String

deriving Repr, DecidableEq

/-- Page merging of `groupReferencesByFile`: each incoming page is appended
unless already present. -/
def mergePages (pages newPages : List String) : List String :=
  newPages.foldl (fun ps p => if p ∈ ps then ps else ps ++ [p]) pages

/-- The merge branch of `groupReferencesByFile` for a `fileId` already in
the map: add unseen pages, and append the answer text unless empty or
already contained as a substring of the accumulated content. -/
def mergeInto (ref : RAGReference) (r : RawResult) : RAGReference :=
  { ref with
    pages := mergePages ref.pages r.pageNumber,
    content :=
      if r.answer != "" && !(strIncludes ref.content r.answer) then
        ref.content ++ "\n" ++ r.answer
      else ref.content }

/-- One `results.forEach` step of `groupReferencesByFile`.  The JavaScript
`Map` keyed by `fileId` (insertion-ordered) is modelled as a list of
references with pairwise distinct `fileId`s. -/
def insertResult (acc : List RAGReference) (r : RawResult) : List RAGReference :=
  if acc.any (fun ref => ref.fileId == r.fileId) then
    acc.map (fun ref => if ref.fileId == r.fileId then mergeInto ref r else ref)
  else
    acc ++ [⟨r.fileId, "", r.pageNumber, r.answer⟩]

/-- The `references.forEach((ref, index) => ref.displayId = String(index + 1))`
pass of `groupReferencesByFile`. -/
def assignDisplayIds : Nat → List RAGReference → List RAGReference
  | _, [] => []
  | i, ref :: rest => { ref with displayId := toString (i + 1) } :: assignDisplayIds (i + 1) rest

/-- `groupReferencesByFile` from `reference.formatter.ts`. -/
def groupReferencesByFile (results : List RawResult) : List RAGReference :=
  assignDisplayIds 0 (results.foldl insertResult [])

/-- Insertion-ordered de-duplication, mirroring the key order of the
JavaScript `Map` built by `groupReferencesByFile`. -/
def seenOrder (l : List String) : List String :=
  l.foldl (fun acc x => if x ∈ acc then acc else acc ++ [x]) []

/-- The pages contributed to one source file, in arrival order: the
concatenation of the `pageNumber` lists of the candidates carrying that
`fileId`, in candidate order. -/
def pagesOf (results : List RawResult) (f : String) : List String :=
  ((results.filter (fun r => r.fileId == f)).map RawResult.pageNumber).flatten

/-! ## Retrieval search (`src/agents/rag.agent.ts`) -/

/-- One object returned by the knowledge store, with the fields the RAG
agent reads (`properties` and `metadata?.distance`).  Distances are modelled
as exact rationals; `none` models absent metadata (`?? 1`). -/
structure WeaviateObj where
  fileId : String
  pageNumber : List String
  answer : String
  question : String
  distance : Option ℚ

deriving Repr, DecidableEq

/-- One entry of the `results` array built by `RAGAgent.search`. -/
structure Candidate where
  fileId : String
  pageNumber : List String
  answer : String
  question : String
  distance : ℚ

deriving Repr, DecidableEq

def Candidate.toRaw (c : Candidate) : RawResult := ⟨c.fileId, c.pageNumber, c.answer⟩

def RELEVANCE_THRESHOLD : ℚ := 45 / 100

/-- The candidate loop of `RAGAgent.search` on a successful `nearText`
response: keep an object exactly when `distance < 0.45`, where the distance
defaults to 1 if metadata is absent. -/
def filterByDistance (objs : List WeaviateObj) : List Candidate :=
  objs.filterMap (fun o =>
    if o.distance.getD 1 < RELEVANCE_THRESHOLD then
      some ⟨o.fileId, o.pageNumber, o.answer, o.question, o.distance.getD 1⟩
    else none)

/-- The stop-word set of `RAGAgent.isRelevant`. -/
def stopWords : List String :=
  ["what", "is", "the", "a", "an", "of", "to", "in", "for", "are", "how", "why",
   "when", "where", "who", "does", "do", "can", "could", "would", "should",
   "about", "that", "this", "with", "from", "have", "has", "been", "was",
   "were", "will", "be", "and", "or", "but", "not", "it", "its", "they",
   "them", "their", "you", "your", "me", "my", "we", "our"]

/-- `RAGAgent.isRelevant`: keyword-overlap heuristic used by the fallback
scan. -/
def isRelevant (query question answer : String) : Bool :=
  let queryLower := lowerStr query
  let combined := lowerStr (question ++ " " ++ answer)
  let queryWords := (queryLower.split (fun c => c.isWhitespace)).filter
    (fun w => decide (w.length ≥ 2) && !(stopWords.contains w))
  queryWords.any (fun w => strIncludes combined w)

/-- The keyword-fallback candidate loop of `RAGAgent.search`: accepted
objects get distance 0. -/
def filterByKeyword (query : String) (objs : List WeaviateObj) : List Candidate :=
  objs.filterMap (fun o =>
    if isRelevant query o.question o.answer then
      some ⟨o.fileId, o.pageNumber, o.answer, o.question, 0⟩
    else none)

/-- Result of `RAGAgent.search` (the streaming variant used by
`processQueryStream`). -/
structure RAGSearchResult where
  results : List Candidate
  references : List RAGReference
  context : String
  prompt : String

deriving Repr, DecidableEq

def ragPromptWithContext (userQuery context : String) : String :=
  "Based on the following context, answer the user\x27s question: \"" ++ userQuery ++
    "\"\n\nContext:\n" ++ context ++
    "\n\nInstructions:\n- Answer based on the context provided\n- If the context does not contain relevant information to answer the question, answer using your own knowledge instead\n- Be concise and accurate"

def ragPromptNoContext (userQuery : String) : String :=
  "Answer the following question concisely and accurately: " ++ userQuery

/-- The tail of `RAGAgent.search` after the candidate list is known:
grouping, context concatenation and grounding-prompt selection. -/
def buildSearchResult (userQuery : String) (results : List Candidate) : RAGSearchResult :=
  let references :=
    if results.length > 0 then groupReferencesByFile (results.map Candidate.toRaw) else []
  if results.length > 0 then
    let context := String.intercalate "\n\n"
      (results.map (fun r => "Q: " ++ r.question ++ "\nA: " ++ r.answer))
    ⟨results, references, context, ragPromptWithContext userQuery context⟩
  else
    ⟨results, references, "", ragPromptNoContext userQuery⟩

/-- Oracle outcomes of the two knowledge-store calls issued by
`RAGAgent.search`: the `nearText` similarity query and the `fetchObjects`
fallback scan. -/
structure SearchEnv where
  nearText : Except String (List WeaviateObj)
  fetchObjects : Except String (List WeaviateObj)

/-- `RAGAgent.search`: similarity search with threshold filter, falling back
to the keyword-filtered scan when the similarity search throws; a failure of
the fallback scan itself propagates. -/
def ragSearch (userQuery : String) (env : SearchEnv) : Except String RAGSearchResult :=
  match env.nearText with
  | .ok objs => .ok (buildSearchResult userQuery (filterByDistance objs))
  | .error _ =>
    match env.fetchObjects with
    | .ok objs => .ok (buildSearchResult userQuery (filterByKeyword userQuery objs))
    | .error m => .error m

/-! ## Claim C9: strict threshold comparison -/

/-- A store object with an arbitrary fixed payload and the given distance. -/
def objWithDistance (d : ℚ) : WeaviateObj := ⟨"f", ["1"], "a", "q", some d⟩

/-! ## Router (`DelegatingAgent.routerNode`) -/

/-- `ToolDecision` from `src/agents/types.ts`. -/
structure ToolDecision where
  tools : List String
  reasoning : String

deriving Repr, DecidableEq

/-- The `tools` field of the object produced by `JSON.parse` on the model
response: absent/undefined, a bare scalar (modelled as a string, with `""`
standing for a falsy scalar), or an array. -/
inductive JsonTools where
  | missing
  | scalar (s : String)
  | arr (l : List String)

deriving Repr, DecidableEq

/-- Outcome of `JSON.parse(response)` in `routerNode`: a parsed object with
its `tools` and `reasoning` fields, or a parse failure. -/
inductive ParseOutcome where
  | success (tools : JsonTools) (reasoning : Option String)
  | failure

deriving Repr, DecidableEq

/-- `Array.isArray(parsed.tools) ? parsed.tools : [parsed.tools || 'rag']`. -/
def normalizeTools : JsonTools → List String
  | .arr l => l
  | .scalar s => [if s == "" then "rag" else s]
  | .missing => ["rag"]

/-- `parsed.reasoning || 'Routed by LLM'`. -/
def normalizeReasoning : Option String → String
  | some r => if r == "" then "Routed by LLM" else r
  | none => "Routed by LLM"

def isOpChar (c : Char) : Bool := c == '+' || c == '-' || c == '*' || c == '/'

/-- Attempt to match the arithmetic pattern (digits, optional whitespace, an
operator, optional whitespace, a digit) at the head of the character list. -/
def arithAt : List Char → Bool
  | [] => false
  | c :: cs =>
    if c.isDigit then
      match (cs.dropWhile Char.isDigit).dropWhile (fun ch => ch.isWhitespace) with
      | op :: rest =>
        if isOpChar op then
          match rest.dropWhile (fun ch => ch.isWhitespace) with
          | d :: _ => d.isDigit
          | [] => false
        else false
      | [] => false
    else false

def arithMatch : List Char → Bool
  | [] => false
  | c :: cs => arithAt (c :: cs) || arithMatch cs

/-- The regular expression test of the router fallback. -/
def hasArithPattern (s : String) : Bool := arithMatch s.toList

/-- The decision logic of `routerNode` once the model response text is in
hand: JSON normalization on parse success, the keyword fallback otherwise. -/
def routerDecide (query response : String) (parsed : ParseOutcome) : ToolDecision :=
  match parsed with
  | .success tools reasoning => ⟨normalizeTools tools, normalizeReasoning reasoning⟩
  | .failure =>
    if strIncludes (lowerStr response) "image" then
      ⟨["image"], "Query mentions image generation"⟩
    else if strIncludes (lowerStr response) "chart" then
      ⟨["chart"], "Query mentions visualization"⟩
    else if strIncludes (lowerStr response) "direct" || hasArithPattern query then
      ⟨["direct"], "Math/code task"⟩
    else
      ⟨["rag"], "Informational query - checking knowledge base"⟩

/-! ## Chart tool (`src/tools/chart.tool.ts`)

The startup-loaded `config.json` mapping is an oracle `configs` from chart
kind to payload (the tool itself never fails per query). -/

structure ChartDataset where
  label : String
  data : List ℚ

deriving Repr, DecidableEq

/-- `ChartJsConfig` from `src/agents/types.ts` (`type` renamed to `ctype`;
the optional `options` block is payload-opaque to the orchestrator and
omitted). -/
structure ChartConfig where
  ctype : String
  labels : List String
  datasets : List ChartDataset

deriving Repr, DecidableEq

/-- `ChartTool.execute`: substring keyword classification of the query
(pie, line, default bar) over the preloaded configuration mapping. -/
def chartExecute (configs : String → ChartConfig) (input : Option String) : ChartConfig :=
  let inputLower := lowerStr (input.getD "")
  if strIncludes inputLower "pie" then configs "pie"
  else if strIncludes inputLower "line" then configs "line"
  else configs "bar"

/-! ## Aggregator (`DelegatingAgent.aggregatorNode`) -/

/-- `RAGResult` from `src/agents/types.ts`. -/
structure RAGResult where
  answer : String
  references : List RAGReference

deriving Repr, DecidableEq

/-- `ImageResult` returned by the image tool. -/
structure ImageResult where
  url : String
  prompt : String
  model : String

deriving Repr, DecidableEq

/-- `ResponseData` from `src/agents/types.ts` (tagged union of reference
variants). -/
inductive ResponseData where
  | rag (r : RAGReference)
  | chart (c : ChartConfig)
  | image (url prompt model : String)

deriving Repr, DecidableEq

def chartMarker : String := "\n\n[Chart configuration included in data]"

def chartPlaceholder : String := "Here is the requested chart configuration."

/-- `aggregatorNode`: combines the optional RAG result, the optional chart
configuration and the direct answer (the `finalAnswer` channel, `""` when no
direct answer was produced) into the final answer text and ordered data
list. -/
def aggregatorNode (ragResults : Option RAGResult) (chartConfig : Option ChartConfig)
    (finalAnswer : String) : String × List ResponseData :=
  let data0 : List ResponseData :=
    match ragResults with
    | some r => r.references.map ResponseData.rag
    | none => []
  let answer0 : String :=
    match ragResults with
    | some r => r.answer
    | none => ""
  let step : String × List ResponseData :=
    match chartConfig with
    | some c =>
      (if answer0 != "" then answer0 ++ chartMarker else chartPlaceholder,
        data0 ++ [ResponseData.chart c])
    | none => (answer0, data0)
  (if step.1 == "" && finalAnswer != "" then finalAnswer else step.1, step.2)

/-! ## Streaming orchestrator (`DelegatingAgent.processQueryStream`) -/

/-- The `SSEEvent` tagged union emitted by the streaming entry point. -/
inductive SSEEvent where
  | thinking (d : String)
  | route (d : ToolDecision)
  | token (d : String)
  | references (d : List RAGReference)
  | chart (d : ChartConfig)
  | image (d : ImageResult)
  | sources (d : String)
  | done (d : List ResponseData)
  | error (d : String)

deriving Repr, DecidableEq

/-- A terminal event is a `done` or an `error`. -/
def SSEEvent.isTerminal : SSEEvent → Bool
  | .done _ => true
  | .error _ => true
  | _ => false

/-- Recognizer for the chart event. -/
def SSEEvent.isChartEv : SSEEvent → Bool
  | .chart _ => true
  | _ => false

/-- Oracle outcomes of every external call `processQueryStream` can issue:
the per-attempt router model call, `JSON.parse` on its response text, the
two knowledge-store calls, the per-prompt per-attempt streaming model call,
the chart configuration mapping and the image tool result. -/
structure StreamOrchEnv where
  routerInvoke : Nat → Except String String
  routerParse : String → ParseOutcome
  search : SearchEnv
  streamInvoke : String → Nat → List String × Option String
  chartConfigs : String → ChartConfig
  imageResult : Except String ImageResult

/-- `DelegatingAgent.routerNode` as invoked by the streaming path: one
retry-wrapped completion call, then JSON-or-fallback decision; a thrown
completion failure propagates. -/
def routerNode (query : String) (env : StreamOrchEnv) : Except String ToolDecision :=
  match (generate env.routerInvoke).result with
  | .error m => .error m
  | .ok response => .ok (routerDecide query response (env.routerParse response))

/-- The decision taken when an image is attached (`imageUrl` present). -/
def imageDecision : ToolDecision := ⟨["image"], "Image attached by user"⟩

def directPromptText (query : String) : String :=
  "Answer the following question directly and concisely: " ++ query

def chartConfirmText : String := "Here is the requested chart configuration."

def imageConfirmText (query : String) : String :=
  "Here is the generated image for: \"" ++ query ++ "\""

/-- The `sources` event payload: per reference
`displayId- Page p` or `displayId- Pages p1, p2`, joined by spaces. -/
def refPagesText (ref : RAGReference) : String :=
  if ref.pages.length == 1 then
    ref.displayId ++ "- Page " ++ ref.pages.headD ""
  else
    ref.displayId ++ "- Pages " ++ String.intercalate ", " ref.pages

def sourcesText (refs : List RAGReference) : String :=
  String.intercalate " " (refs.map refPagesText)

/-- `DelegatingAgent.processQueryStream`: the full event sequence of one
query.  The body mirrors the generator: everything sits in one `try` block
whose last statement yields the terminal `done`; the `catch` yields one
terminal `error` carrying the failure message after whatever events were
already yielded. -/
def processQueryStream (query : String) (imageUrl : Option String)
    (env : StreamOrchEnv) : List SSEEvent :=
  let ev0 := SSEEvent.thinking (if imageUrl.isSome then "Processing image..." else "Routing query...")
  let decisionE : Except String ToolDecision :=
    match imageUrl with
    | some _ => .ok imageDecision
    | none => routerNode query env
  match decisionE with
  | .error m => [ev0, SSEEvent.error m]
  | .ok decision =>
    let evs0 := [ev0, SSEEvent.route decision]
    let tools := decision.tools
    let mainTool : Option String :=
      if tools.head? == some "both" then some "rag" else tools.head?
    if mainTool == some "rag" then
      match ragSearch query env.search with
      | .error m => evs0 ++ [SSEEvent.error m]
      | .ok sr =>
        let refEvs :=
          if sr.references.length > 0 then [SSEEvent.references sr.references] else []
        let refData : List ResponseData :=
          if sr.references.length > 0 then sr.references.map ResponseData.rag else []
        let srun := generateStream (env.streamInvoke sr.prompt)
        let tokenEvs := srun.emitted.map SSEEvent.token
        match srun.thrown with
        | some m => evs0 ++ refEvs ++ tokenEvs ++ [SSEEvent.error m]
        | none =>
          let srcEvs :=
            if sr.references.length > 0 then [SSEEvent.sources (sourcesText sr.references)] else []
          if tools.head? == some "both" then
            let c := chartExecute env.chartConfigs (some query)
            evs0 ++ refEvs ++ tokenEvs ++ srcEvs ++
              [SSEEvent.chart c, SSEEvent.done (refData ++ [ResponseData.chart c])]
          else
            evs0 ++ refEvs ++ tokenEvs ++ srcEvs ++ [SSEEvent.done refData]
    else if mainTool == some "chart" then
      let c := chartExecute env.chartConfigs (some query)
      evs0 ++ [SSEEvent.chart c, SSEEvent.token chartConfirmText,
        SSEEvent.done [ResponseData.chart c]]
    else if mainTool == some "image" then
      match env.imageResult with
      | .error m => evs0 ++ [SSEEvent.error m]
      | .ok r =>
        evs0 ++ [SSEEvent.image r, SSEEvent.token (imageConfirmText query),
          SSEEvent.done [ResponseData.image r.url r.prompt r.model]]
    else
      let srun := generateStream (env.streamInvoke (directPromptText query))
      let tokenEvs := srun.emitted.map SSEEvent.token
      match srun.thrown with
      | some m => evs0 ++ tokenEvs ++ [SSEEvent.error m]
      | none => evs0 ++ tokenEvs ++ [SSEEvent.done []]

/-! ## Non-streaming mode (`processQuery` / `processQuerySync`)

The LangGraph workflow invocation is the oracle boundary: it either returns
the final channel values (`finalAnswer`, `data`) or throws. -/

/-- The channels of the compiled workflow result that `processQuery`
reads. -/
structure WorkflowResult where
  finalAnswer : String
  data : List ResponseData

deriving Repr, DecidableEq

/-- `StreamingResponse` from `src/agents/types.ts`. -/
structure StreamingResponse where
  answer : String
  data : List ResponseData

deriving Repr, DecidableEq

/-- The word-chunking loop of `processQuery`: the first word as-is, every
later word preceded by one space. -/
def wordChunks : List String → List StreamingResponse
  | [] => []
  | w :: ws => ⟨w, []⟩ :: ws.map (fun v => ⟨" " ++ v, []⟩)

/-- `DelegatingAgent.processQuery`: on a successful workflow run, stream the
answer word by word then a final chunk carrying the data; on a thrown
failure, absorb it into a single chunk whose answer text is the prefixed
failure message and whose data list is empty. -/
def processQuery (workflowOutcome : Except String WorkflowResult) : List StreamingResponse :=
  match workflowOutcome with
  | .ok result =>
    let answer := if result.finalAnswer == "" then "No answer generated" else result.finalAnswer
    wordChunks (answer.splitOn " ") ++ [⟨"", result.data⟩]
  | .error m => [⟨"Error processing query: " ++ m, []⟩]

/-- `DelegatingAgent.processQuerySync`: collect the chunk sequence into one
response (concatenating non-empty answer chunks, keeping the last non-empty
data list). -/
def processQuerySync (workflowOutcome : Except String WorkflowResult) : StreamingResponse :=
  (processQuery workflowOutcome).foldl
    (fun acc chunk =>
      ⟨if chunk.answer != "" then acc.answer ++ chunk.answer else acc.answer,
        if chunk.data.length > 0 then chunk.data else acc.data⟩)
    ⟨"", []⟩

def bothEnv : StreamOrchEnv where
  routerInvoke := fun _ => .ok "resp"
  routerParse := fun _ => .success (.arr ["both"]) (some "r")
  search := ⟨.ok [⟨"f", ["1"], "ans", "qq", some (1 / 10)⟩], .ok []⟩
  streamInvoke := fun _ _ => (["tok"], none)
  chartConfigs := fun k => ⟨k, ["l"], [⟨"d", [1]⟩]⟩
  imageResult := .ok ⟨"u", "p", "m"⟩

def bothSearchResult : RAGSearchResult :=
  buildSearchResult "q" (filterByDistance [⟨"f", ["1"], "ans", "qq", some (1 / 10)⟩])

/-! ## Theorems about the embedded definitions -/

/-! ## Claims C3 and C4: retry discipline of the completion client -/

/-- Every message matching the permanent quota pattern also matches the
transient rate-limit pattern (both check for "quota" and
"resource has been exhausted"). -/
theorem quota_imp_rateLimit (m : String) :
    isDailyQuotaExhausted m = true → isRateLimitError m = true := by
  simp only [isDailyQuotaExhausted, isRateLimitError, Bool.or_eq_true]
  tauto

theorem rateLimit_false_quota_false (m : String) (h : isRateLimitError m = false) :
    isDailyQuotaExhausted m = false := by
  cases hq : isDailyQuotaExhausted m
  · rfl
  · rw [quota_imp_rateLimit m hq] at h
    exact absurd h (by simp)

/-- C4 counterexample: a failure whose message matches the permanent
quota-exhaustion pattern is nevertheless retried — the run performs 4 tries
and sleeps 3 exponential backoff delays before rethrowing the clarified
message, contradicting "performs no retry and rethrows immediately". -/
theorem generate_quota_retried_cex :
    isDailyQuotaExhausted "quota exceeded for today" = true ∧
    generate quotaFailInvoke = ⟨.error quotaExceededMsg, 4, [2000, 4000, 8000]⟩ := by
  decide

/-- C4 (amended): the quota pattern is a sub-pattern of the rate-limit
pattern, so a quota-matching failure is retried like any rate-limit failure
with delay base times 2 to the attempt, up to 3 retries (4 total tries), and
only after exhaustion is it rethrown with the clarified quota message; a
failure matching neither pattern is rethrown immediately, unchanged, with no
retry; a rate-limit failure followed by a success returns that success. -/
theorem generate_retry_discipline :
    (∀ (invoke : Nat → Except String String) (m : String),
      invoke 0 = .error m → isRateLimitError m = false →
      generate invoke = ⟨.error m, 1, []⟩) ∧
    (∀ (invoke : Nat → Except String String) (m : String),
      (∀ i, invoke i = .error m) → isRateLimitError m = true →
      generate invoke =
        ⟨.error (if isDailyQuotaExhausted m then quotaExceededMsg else m),
          4, [2000, 4000, 8000]⟩) ∧
    (∀ (invoke : Nat → Except String String) (m t : String),
      invoke 0 = .error m → isRateLimitError m = true → invoke 1 = .ok t →
      generate invoke = ⟨.ok t, 2, [2000]⟩) := by
  refine ⟨?_, ?_, ?_⟩
  · intro invoke m h0 hrl
    have hq := rateLimit_false_quota_false m hrl
    simp [generate, generateLoop, h0, hrl, hq]
  · intro invoke m hall hrl
    simp [generate, generateLoop, hall 0, hall 1, hall 2, hall 3, hrl,
      MAX_RETRIES, BASE_DELAY_MS]
  · intro invoke m t h0 hrl h1
    simp [generate, generateLoop, h0, h1, hrl, MAX_RETRIES, BASE_DELAY_MS]

/-- C4 witness: the amended theorem applied to a concrete non-rate-limit
failure. -/
theorem generate_retry_discipline_witness :
    (fun _ => (.error "boom" : Except String String)) 0 = .error "boom" ∧
    isRateLimitError "boom" = false ∧
    generate (fun _ => .error "boom") = ⟨.error "boom", 1, []⟩ :=
  ⟨rfl, by decide, generate_retry_discipline.1 (fun _ => .error "boom") "boom" rfl (by decide)⟩

/-- C3 counterexample: the first stream attempt yields the fragment "A" and
then fails mid-stream with a rate-limit message; the run restarts the
stream, delivers "A" a second time, and the failure never propagates —
contradicting "not retried, never restarted, no fragment delivered more
than once, failure propagates as-is". -/
theorem generateStream_midstream_retry_cex :
    (midStreamRetryAttempts 0).1 = ["A"] ∧
    (midStreamRetryAttempts 0).2 = some "rate limit" ∧
    generateStream midStreamRetryAttempts = ⟨["A", "A"], none, 2, [2000]⟩ := by
  decide

/-- C3 (amended): a mid-stream failure is retried exactly when its message
matches the rate-limit pattern and attempts remain — the stream is restarted
from scratch, so fragments already yielded are delivered again before the
remainder of the run; a mid-stream failure not matching the rate-limit
pattern is not retried and propagates as-is after the fragments yielded so
far; and once the 3-retry budget is exhausted a matching mid-stream failure
is likewise not retried any further and propagates after 4 total stream
attempts and 3 backoff sleeps, with quota-matching messages rewritten to the
clarified quota text. -/
theorem generateStream_midstream_discipline :
    (∀ (attempts : Nat → List String × Option String) (m : String),
      (attempts 0).2 = some m → isRateLimitError m = false →
      generateStream attempts =
        ⟨(attempts 0).1.filter (fun c => c != ""), some m, 1, []⟩) ∧
    (∀ (attempts : Nat → List String × Option String) (m : String),
      (attempts 0).2 = some m → isRateLimitError m = true →
      generateStream attempts =
        ⟨(attempts 0).1.filter (fun c => c != "") ++
            (generateStreamLoop attempts MAX_RETRIES 1).emitted,
          (generateStreamLoop attempts MAX_RETRIES 1).thrown,
          (generateStreamLoop attempts MAX_RETRIES 1).tries + 1,
          BASE_DELAY_MS * 2 ^ 0 :: (generateStreamLoop attempts MAX_RETRIES 1).delays⟩) ∧
    (∀ (attempts : Nat → List String × Option String) (m : String),
      (∀ i, (attempts i).2 = some m) → isRateLimitError m = true →
      generateStream attempts =
        ⟨(attempts 0).1.filter (fun c => c != "") ++
            ((attempts 1).1.filter (fun c => c != "") ++
              ((attempts 2).1.filter (fun c => c != "") ++
                (attempts 3).1.filter (fun c => c != ""))),
          some (if isDailyQuotaExhausted m then quotaExceededMsg else m),
          4, [2000, 4000, 8000]⟩) := by
  refine ⟨?_, ?_, ?_⟩
  · intro attempts m h0 hrl
    have hq := rateLimit_false_quota_false m hrl
    simp [generateStream, generateStreamLoop, h0, hrl, hq]
  · intro attempts m h0 hrl
    simp [generateStream, generateStreamLoop, h0, hrl, MAX_RETRIES]
  · intro attempts m hall hrl
    simp [generateStream, generateStreamLoop, hall 0, hall 1, hall 2, hall 3, hrl,
      MAX_RETRIES, BASE_DELAY_MS]

/-- C3 witness: the amended theorem applied to a concrete stream whose
mid-stream failure does not match the rate-limit pattern. -/
theorem generateStream_midstream_discipline_witness :
    ((fun _ => ((["A"], some "boom") : List String × Option String)) 0).2 = some "boom" ∧
    isRateLimitError "boom" = false ∧
    generateStream (fun _ => (["A"], some "boom")) = ⟨["A"], some "boom", 1, []⟩ :=
  ⟨rfl, by decide,
    generateStream_midstream_discipline.1 (fun _ => (["A"], some "boom")) "boom" rfl (by decide)⟩

/-! ## Claim C7: invariants of the grouping step -/

theorem assignDisplayIds_length (l : List RAGReference) :
    ∀ i, (assignDisplayIds i l).length = l.length := by
  induction l with
  | nil => intro i; rfl
  | cons ref rest ih => intro i; simp [assignDisplayIds, ih]

theorem assignDisplayIds_map_displayId (l : List RAGReference) :
    ∀ i, (assignDisplayIds i l).map RAGReference.displayId =
      (List.range l.length).map (fun k => toString (i + k + 1)) := by
  induction l with
  | nil => intro i; rfl
  | cons ref rest ih =>
    intro i
    simp only [assignDisplayIds, List.map_cons, List.length_cons,
      List.range_succ_eq_map, List.map_map, Nat.add_zero]
    congr 1
    rw [ih (i + 1)]
    apply List.map_congr_left
    intro k _
    simp only [Function.comp_apply]
    congr 1
    omega

theorem assignDisplayIds_map_fileId (l : List RAGReference) :
    ∀ i, (assignDisplayIds i l).map RAGReference.fileId = l.map RAGReference.fileId := by
  induction l with
  | nil => intro i; rfl
  | cons ref rest ih => intro i; simp [assignDisplayIds, ih]

theorem assignDisplayIds_map_pages (l : List RAGReference) :
    ∀ i, (assignDisplayIds i l).map RAGReference.pages = l.map RAGReference.pages := by
  induction l with
  | nil => intro i; rfl
  | cons ref rest ih => intro i; simp [assignDisplayIds, ih]

theorem mergePages_step_nodup (ps : List String) (p : String) (h : ps.Nodup) :
    (if p ∈ ps then ps else ps ++ [p]).Nodup := by
  split
  · exact h
  · rename_i hp
    rw [List.nodup_append]
    exact ⟨h, List.nodup_singleton p, by
      intro a ha hmem
      simp only [List.mem_singleton] at hmem
      exact hp (hmem ▸ ha)⟩

theorem mergePages_nodup (newPages : List String) :
    ∀ ps : List String, ps.Nodup → (mergePages ps newPages).Nodup := by
  induction newPages with
  | nil => intro ps h; exact h
  | cons p rest ih =>
    intro ps h
    simp only [mergePages, List.foldl_cons]
    exact ih _ (mergePages_step_nodup ps p h)

theorem seenOrder_nodup (l : List String) : (seenOrder l).Nodup :=
  mergePages_nodup l [] List.nodup_nil

theorem mergeInto_fileId (ref : RAGReference) (r : RawResult) :
    (mergeInto ref r).fileId = ref.fileId := rfl

theorem insertResult_map_fileId (acc : List RAGReference) (r : RawResult) :
    (insertResult acc r).map RAGReference.fileId =
      if r.fileId ∈ acc.map RAGReference.fileId then acc.map RAGReference.fileId
      else acc.map RAGReference.fileId ++ [r.fileId] := by
  have hiff : (acc.any (fun ref => ref.fileId == r.fileId) = true) ↔
      r.fileId ∈ acc.map RAGReference.fileId := by
    simp only [List.any_eq_true, List.mem_map, beq_iff_eq]
  unfold insertResult
  split
  · rename_i hany
    rw [if_pos (hiff.mp hany), List.map_map]
    apply List.map_congr_left
    intro ref _
    simp only [Function.comp_apply]
    split
    · rw [mergeInto_fileId]
    · rfl
  · rename_i hany
    rw [if_neg (fun hmem => hany (hiff.mpr hmem))]
    simp

theorem foldl_insertResult_fileId (results : List RawResult) :
    ∀ acc : List RAGReference,
      (results.foldl insertResult acc).map RAGReference.fileId =
        (results.map RawResult.fileId).foldl
          (fun a x => if x ∈ a then a else a ++ [x]) (acc.map RAGReference.fileId) := by
  induction results with
  | nil => intro acc; rfl
  | cons r rs ih =>
    intro acc
    simp only [List.foldl_cons, List.map_cons]
    rw [ih, insertResult_map_fileId]

theorem foldl_seen_step_nodup (l : List String) :
    ∀ acc : List String, acc.Nodup →
      (l.foldl (fun a x => if x ∈ a then a else a ++ [x]) acc).Nodup := by
  induction l with
  | nil => intro acc h; exact h
  | cons x xs ih =>
    intro acc h
    simp only [List.foldl_cons]
    exact ih _ (mergePages_step_nodup acc x h)

theorem insertResult_pages_nodup (acc : List RAGReference) (r : RawResult)
    (hacc : ∀ ref ∈ acc, ref.pages.Nodup) (hr : r.pageNumber.Nodup) :
    ∀ ref ∈ insertResult acc r, ref.pages.Nodup := by
  unfold insertResult
  split
  · intro ref href
    rw [List.mem_map] at href
    obtain ⟨ref0, href0, heq⟩ := href
    subst heq
    split
    · exact mergePages_nodup r.pageNumber ref0.pages (hacc ref0 href0)
    · exact hacc ref0 href0
  · intro ref href
    rw [List.mem_append] at href
    rcases href with h | h
    · exact hacc ref h
    · simp only [List.mem_singleton] at h
      subst h
      exact hr

theorem foldl_insertResult_pages_nodup (results : List RawResult)
    (hres : ∀ r ∈ results, r.pageNumber.Nodup) :
    ∀ acc : List RAGReference, (∀ ref ∈ acc, ref.pages.Nodup) →
      ∀ ref ∈ results.foldl insertResult acc, ref.pages.Nodup := by
  induction results with
  | nil => intro acc hacc; exact hacc
  | cons r rs ih =>
    intro acc hacc
    simp only [List.foldl_cons]
    exact ih (fun x hx => hres x (List.mem_cons_of_mem r hx)) _
      (insertResult_pages_nodup acc r hacc (hres r (List.mem_cons_self r rs)))

theorem foldl_step_of_disjoint (l : List String) :
    ∀ acc : List String, l.Nodup → (∀ x ∈ l, x ∉ acc) →
      l.foldl (fun a x => if x ∈ a then a else a ++ [x]) acc = acc ++ l := by
  induction l with
  | nil => intro acc _ _; simp
  | cons x xs ih =>
    intro acc hnd hdis
    have hx : x ∉ acc := hdis x (List.mem_cons_self x xs)
    have hdis2 : ∀ y ∈ xs, y ∉ acc ++ [x] := by
      intro y hy hmem
      rcases List.mem_append.mp hmem with h | h
      · exact hdis y (List.mem_cons_of_mem x hy) h
      · rw [List.mem_singleton] at h
        subst h
        exact (List.nodup_cons.mp hnd).1 hy
    simp only [List.foldl_cons, if_neg hx]
    rw [ih (acc ++ [x]) (List.nodup_cons.mp hnd).2 hdis2, List.append_assoc]
    rfl

theorem seenOrder_of_nodup (l : List String) (h : l.Nodup) : seenOrder l = l := by
  have hdis : ∀ x ∈ l, x ∉ ([] : List String) := by
    intro x _ hx
    cases hx
  have := foldl_step_of_disjoint l [] h hdis
  simpa [seenOrder] using this

theorem seenOrder_append (l1 l2 : List String) :
    seenOrder (l1 ++ l2) = mergePages (seenOrder l1) l2 := by
  simp [seenOrder, mergePages, List.foldl_append]

theorem pagesOf_append_match (processed : List RawResult) (r : RawResult) (f : String)
    (h : r.fileId = f) :
    pagesOf (processed ++ [r]) f = pagesOf processed f ++ r.pageNumber := by
  simp [pagesOf, List.filter_append, h]

theorem pagesOf_append_nomatch (processed : List RawResult) (r : RawResult) (f : String)
    (h : ¬ r.fileId = f) :
    pagesOf (processed ++ [r]) f = pagesOf processed f := by
  simp [pagesOf, List.filter_append, h]

theorem pagesOf_nil_of_not_mem (processed : List RawResult) (f : String)
    (h : f ∉ processed.map RawResult.fileId) :
    pagesOf processed f = [] := by
  have hfil : processed.filter (fun q => q.fileId == f) = [] := by
    rw [List.filter_eq_nil_iff]
    intro q hq
    simp only [beq_iff_eq]
    intro heq
    exact h (heq ▸ List.mem_map_of_mem RawResult.fileId hq)
  simp [pagesOf, hfil]

theorem insertResult_pages_order (processed : List RawResult) (acc : List RAGReference)
    (r : RawResult)
    (hfid : ∀ f, f ∈ acc.map RAGReference.fileId ↔ f ∈ processed.map RawResult.fileId)
    (hinv : ∀ ref ∈ acc, ref.pages = seenOrder (pagesOf processed ref.fileId))
    (hr : r.pageNumber.Nodup) :
    (∀ f, f ∈ (insertResult acc r).map RAGReference.fileId ↔
      f ∈ (processed ++ [r]).map RawResult.fileId) ∧
    (∀ ref ∈ insertResult acc r,
      ref.pages = seenOrder (pagesOf (processed ++ [r]) ref.fileId)) := by
  constructor
  · intro f
    rw [insertResult_map_fileId]
    by_cases hmem : r.fileId ∈ acc.map RAGReference.fileId
    · rw [if_pos hmem, hfid f]
      simp only [List.map_append, List.mem_append, List.map_cons, List.map_nil,
        List.mem_singleton]
      constructor
      · exact Or.inl
      · rintro (h | rfl)
        · exact h
        · exact (hfid r.fileId).mp hmem
    · rw [if_neg hmem]
      simp only [List.mem_append, List.mem_singleton, hfid f, List.map_append,
        List.map_cons, List.map_nil]
  · intro ref href
    unfold insertResult at href
    split at href
    · rename_i hany
      rw [List.mem_map] at href
      obtain ⟨ref0, href0, heq⟩ := href
      subst heq
      by_cases hf : ref0.fileId = r.fileId
      · have hb : (ref0.fileId == r.fileId) = true := by
          rw [beq_iff_eq]
          exact hf
        simp only [hb, if_true]
        have hfid0 : (mergeInto ref0 r).fileId = ref0.fileId := rfl
        have hpg : (mergeInto ref0 r).pages = mergePages ref0.pages r.pageNumber := rfl
        rw [hfid0, hpg, pagesOf_append_match processed r ref0.fileId hf.symm,
          seenOrder_append, hinv ref0 href0]
      · have hb : (ref0.fileId == r.fileId) = false := by
          rw [beq_eq_false_iff_ne]
          exact hf
        simp only [hb, Bool.false_eq_true, if_false]
        rw [pagesOf_append_nomatch processed r ref0.fileId (fun h => hf h.symm)]
        exact hinv ref0 href0
    · rename_i hany
      rcases List.mem_append.mp href with h | h
      · have hne : ¬ r.fileId = ref.fileId := by
          intro hEq
          apply hany
          rw [List.any_eq_true]
          exact ⟨ref, h, by rw [beq_iff_eq]; exact hEq.symm⟩
        rw [pagesOf_append_nomatch processed r ref.fileId hne]
        exact hinv ref h
      · rw [List.mem_singleton] at h
        subst h
        have hnotin : r.fileId ∉ processed.map RawResult.fileId := by
          intro hmem
          apply hany
          rw [List.any_eq_true]
          have hback := (hfid r.fileId).mpr hmem
          rw [List.mem_map] at hback
          obtain ⟨ref0, href0, heq⟩ := hback
          exact ⟨ref0, href0, by rw [beq_iff_eq]; exact heq⟩
        show r.pageNumber = seenOrder (pagesOf (processed ++ [r]) r.fileId)
        rw [pagesOf_append_match processed r r.fileId rfl,
          pagesOf_nil_of_not_mem processed r.fileId hnotin]
        rw [List.nil_append, seenOrder_of_nodup r.pageNumber hr]

theorem foldl_insertResult_pages_order (results : List RawResult) :
    ∀ (processed : List RawResult) (acc : List RAGReference),
      (∀ r ∈ results, r.pageNumber.Nodup) →
      (∀ f, f ∈ acc.map RAGReference.fileId ↔ f ∈ processed.map RawResult.fileId) →
      (∀ ref ∈ acc, ref.pages = seenOrder (pagesOf processed ref.fileId)) →
      ∀ ref ∈ results.foldl insertResult acc,
        ref.pages = seenOrder (pagesOf (processed ++ results) ref.fileId) := by
  induction results with
  | nil =>
    intro processed acc _ _ hinv
    simpa using hinv
  | cons r rs ih =>
    intro processed acc hnd hfid hinv
    simp only [List.foldl_cons]
    have hstep := insertResult_pages_order processed acc r hfid hinv
      (hnd r (List.mem_cons_self r rs))
    intro ref href
    have hres := ih (processed ++ [r]) (insertResult acc r)
      (fun x hx => hnd x (List.mem_cons_of_mem r hx)) hstep.1 hstep.2 ref href
    rw [List.append_assoc] at hres
    simpa using hres

theorem assignDisplayIds_mem_shape (l : List RAGReference) :
    ∀ (i : Nat) (ref : RAGReference), ref ∈ assignDisplayIds i l →
      ∃ ref0 ∈ l, ref.fileId = ref0.fileId ∧ ref.pages = ref0.pages := by
  induction l with
  | nil =>
    intro i ref h
    cases h
  | cons x xs ih =>
    intro i ref h
    rcases List.mem_cons.mp h with rfl | h
    · exact ⟨x, List.mem_cons_self x xs, rfl, rfl⟩
    · obtain ⟨ref0, h0, hf, hp⟩ := ih (i + 1) ref h
      exact ⟨ref0, List.mem_cons_of_mem x h0, hf, hp⟩

/-- C7 counterexample: a single candidate whose own page list repeats a page
is copied verbatim into the new reference, so the produced page list is not
duplicate-free. -/
theorem groupReferences_dup_pages_cex :
    (groupReferencesByFile [⟨"f", ["1", "1"], "a"⟩]).map RAGReference.pages = [["1", "1"]] ∧
    ¬ ([("1" : String), "1"] : List String).Nodup := by
  decide

/-- C7 (amended): for every non-empty candidate list the grouping step
produces references whose display ordinals are the dense sequence 1..N in
list order (first-seen source order), whose `fileId`s are pairwise distinct
and appear in first-seen order, and whose page lists are duplicate-free with
insertion order preserved — provided each candidate's own page list is
duplicate-free (pages arriving from later candidates of the same source are
de-duplicated, but the first candidate's page list is copied verbatim).
Insertion order is stated exactly: each reference's page list equals the
first-occurrence-order de-duplication (`seenOrder`) of the concatenated page
lists of its source's candidates, in arrival order (`pagesOf`). -/
theorem groupReferences_invariants (results : List RawResult)
    (_hne : results ≠ []) (hpages : ∀ r ∈ results, r.pageNumber.Nodup) :
    ((groupReferencesByFile results).map RAGReference.displayId =
      (List.range (groupReferencesByFile results).length).map (fun k => toString (k + 1))) ∧
    ((groupReferencesByFile results).map RAGReference.fileId =
      seenOrder (results.map RawResult.fileId)) ∧
    ((groupReferencesByFile results).map RAGReference.fileId).Nodup ∧
    (∀ ref ∈ groupReferencesByFile results, ref.pages.Nodup) ∧
    (∀ ref ∈ groupReferencesByFile results,
      ref.pages = seenOrder (pagesOf results ref.fileId)) := by
  refine ⟨?_, ?_, ?_, ?_, ?_⟩
  · unfold groupReferencesByFile
    rw [assignDisplayIds_map_displayId, assignDisplayIds_length]
    apply List.map_congr_left
    intro k _
    congr 1
    omega
  · unfold groupReferencesByFile
    rw [assignDisplayIds_map_fileId, foldl_insertResult_fileId]
    rfl
  · unfold groupReferencesByFile
    rw [assignDisplayIds_map_fileId, foldl_insertResult_fileId]
    exact foldl_seen_step_nodup _ _ List.nodup_nil
  · intro ref href
    unfold groupReferencesByFile at href
    have hmem : ref.pages ∈ (assignDisplayIds 0 (results.foldl insertResult [])).map
        RAGReference.pages := List.mem_map_of_mem RAGReference.pages href
    rw [assignDisplayIds_map_pages, List.mem_map] at hmem
    obtain ⟨ref0, href0, heq⟩ := hmem
    rw [← heq]
    exact foldl_insertResult_pages_nodup results hpages [] (by intro x hx; cases hx) ref0 href0
  · intro ref href
    unfold groupReferencesByFile at href
    obtain ⟨ref0, h0, hf, hp⟩ := assignDisplayIds_mem_shape _ 0 ref href
    have hmain := foldl_insertResult_pages_order results [] [] hpages
      (by intro f; simp) (by intro ref1 h1; cases h1) ref0 h0
    rw [hf, hp]
    simpa using hmain

/-- C9 (confirmed): inclusion of a candidate is decided by the strict
comparison `distance < 0.45` (distance defaulting to 1 when absent); a
candidate at exactly 0.45 is excluded and a candidate at 0.4499 is
included. -/
theorem search_threshold_strict :
    (∀ objs : List WeaviateObj,
      filterByDistance objs =
        (objs.filter (fun o => decide (o.distance.getD 1 < RELEVANCE_THRESHOLD))).map
          (fun o => ⟨o.fileId, o.pageNumber, o.answer, o.question, o.distance.getD 1⟩)) ∧
    filterByDistance [objWithDistance (45 / 100)] = [] ∧
    filterByDistance [objWithDistance (4499 / 10000)] =
      [⟨"f", ["1"], "a", "q", 4499 / 10000⟩] := by
  refine ⟨?_, ?_, ?_⟩
  · intro objs
    induction objs with
    | nil => rfl
    | cons o os ih =>
      simp only [filterByDistance] at ih ⊢
      simp only [List.filterMap_cons, List.filter_cons]
      by_cases h : o.distance.getD 1 < RELEVANCE_THRESHOLD
      · simp [h, ih]
      · simp [h, ih]
  · norm_num [filterByDistance, objWithDistance, RELEVANCE_THRESHOLD]
  · norm_num [filterByDistance, objWithDistance, RELEVANCE_THRESHOLD,
      List.filterMap_cons]

/-- C7 witness: the amended theorem applied to two concrete candidates that
share a source file. -/
theorem groupReferences_invariants_witness :
    ([⟨"f", ["1", "2"], "a"⟩, ⟨"g", ["2"], "b"⟩, ⟨"f", ["2", "3"], "c"⟩] : List RawResult) ≠ [] ∧
    (∀ r ∈ ([⟨"f", ["1", "2"], "a"⟩, ⟨"g", ["2"], "b"⟩, ⟨"f", ["2", "3"], "c"⟩] : List RawResult),
      r.pageNumber.Nodup) ∧
    (((groupReferencesByFile [⟨"f", ["1", "2"], "a"⟩, ⟨"g", ["2"], "b"⟩, ⟨"f", ["2", "3"], "c"⟩]).map
        RAGReference.displayId =
      (List.range (groupReferencesByFile
        [⟨"f", ["1", "2"], "a"⟩, ⟨"g", ["2"], "b"⟩, ⟨"f", ["2", "3"], "c"⟩]).length).map
          (fun k => toString (k + 1))) ∧
    ((groupReferencesByFile [⟨"f", ["1", "2"], "a"⟩, ⟨"g", ["2"], "b"⟩, ⟨"f", ["2", "3"], "c"⟩]).map
        RAGReference.fileId =
      seenOrder (([⟨"f", ["1", "2"], "a"⟩, ⟨"g", ["2"], "b"⟩, ⟨"f", ["2", "3"], "c"⟩] :
        List RawResult).map RawResult.fileId)) ∧
    ((groupReferencesByFile [⟨"f", ["1", "2"], "a"⟩, ⟨"g", ["2"], "b"⟩, ⟨"f", ["2", "3"], "c"⟩]).map
        RAGReference.fileId).Nodup ∧
    (∀ ref ∈ groupReferencesByFile
        [⟨"f", ["1", "2"], "a"⟩, ⟨"g", ["2"], "b"⟩, ⟨"f", ["2", "3"], "c"⟩],
      ref.pages.Nodup) ∧
    (∀ ref ∈ groupReferencesByFile
        [⟨"f", ["1", "2"], "a"⟩, ⟨"g", ["2"], "b"⟩, ⟨"f", ["2", "3"], "c"⟩],
      ref.pages = seenOrder (pagesOf
        [⟨"f", ["1", "2"], "a"⟩, ⟨"g", ["2"], "b"⟩, ⟨"f", ["2", "3"], "c"⟩] ref.fileId))) :=
  ⟨by decide, by decide,
    groupReferences_invariants [⟨"f", ["1", "2"], "a"⟩, ⟨"g", ["2"], "b"⟩, ⟨"f", ["2", "3"], "c"⟩]
      (by decide) (by decide)⟩

/-! ## String facts used below -/

theorem append_ne_empty_left (s t : String) (h : s.data ≠ []) : s ++ t ≠ "" := by
  intro hc
  apply h
  have hdata := congrArg String.data hc
  rw [String.data_append] at hdata
  exact (List.append_eq_nil.mp hdata).1

theorem append_ne_empty_right (s t : String) (h : t.data ≠ []) : s ++ t ≠ "" := by
  intro hc
  apply h
  have hdata := congrArg String.data hc
  rw [String.data_append] at hdata
  exact (List.append_eq_nil.mp hdata).2

/-! ## Claim C5: router tools normalization -/

/-- C5 counterexample: a response that parses as JSON with an *empty array*
`tools` field keeps the empty array as the decision — the decision is not
non-empty and is not the `[rag]` fallback, contradicting "an absent or
empty tools field yields the decision [retrieval]". -/
theorem router_empty_tools_cex :
    (routerDecide "q" "resp" (ParseOutcome.success (JsonTools.arr []) none)).tools = [] ∧
    ([] : List String) ≠ ["rag"] := by decide

/-- C5 (amended): on parse success an array-valued `tools` field is used
as-is, even when empty; a non-array value is wrapped — a truthy scalar into
a single-element list, while an absent or falsy scalar yields `[rag]`. -/
theorem router_normalize_tools :
    (∀ (q r : String) (l : List String) (rs : Option String),
      routerDecide q r (ParseOutcome.success (JsonTools.arr l) rs) =
        ⟨l, normalizeReasoning rs⟩) ∧
    (∀ (q r s : String) (rs : Option String), s ≠ "" →
      routerDecide q r (ParseOutcome.success (JsonTools.scalar s) rs) =
        ⟨[s], normalizeReasoning rs⟩) ∧
    (∀ (q r : String) (rs : Option String),
      routerDecide q r (ParseOutcome.success (JsonTools.scalar "") rs) =
        ⟨["rag"], normalizeReasoning rs⟩) ∧
    (∀ (q r : String) (rs : Option String),
      routerDecide q r (ParseOutcome.success JsonTools.missing rs) =
        ⟨["rag"], normalizeReasoning rs⟩) := by
  refine ⟨?_, ?_, ?_, ?_⟩
  · intro q r l rs; rfl
  · intro q r s rs h
    have hb : (s == "") = false := by rwa [beq_eq_false_iff_ne]
    simp [routerDecide, normalizeTools, hb]
  · intro q r rs; rfl
  · intro q r rs; rfl

/-- C5 witness: the amended theorem applied to a concrete scalar value. -/
theorem router_normalize_tools_witness :
    ("chart" : String) ≠ "" ∧
    routerDecide "q" "r" (ParseOutcome.success (JsonTools.scalar "chart") none) =
      ⟨["chart"], normalizeReasoning none⟩ :=
  ⟨by decide, router_normalize_tools.2.1 "q" "r" "chart" none (by decide)⟩

/-! ## Claim C8: aggregator precedence -/

/-- C8 (confirmed): `aggregatorNode` is a pure function of its three inputs
with the specified `finalAnswer` precedence — a non-empty retrieval answer
is the base; a chart appends the fixed marker to it (or, with no retrieval
text, yields the fixed placeholder); with neither retrieval text nor chart,
the direct answer is used. -/
theorem aggregator_precedence :
    (∀ (r : RAGResult) (c : ChartConfig) (f : String), r.answer ≠ "" →
      aggregatorNode (some r) (some c) f =
        (r.answer ++ chartMarker,
          r.references.map ResponseData.rag ++ [ResponseData.chart c])) ∧
    (∀ (r : RAGResult) (c : ChartConfig) (f : String), r.answer = "" →
      aggregatorNode (some r) (some c) f =
        (chartPlaceholder,
          r.references.map ResponseData.rag ++ [ResponseData.chart c])) ∧
    (∀ (c : ChartConfig) (f : String),
      aggregatorNode none (some c) f = (chartPlaceholder, [ResponseData.chart c])) ∧
    (∀ (r : RAGResult) (f : String), r.answer ≠ "" →
      aggregatorNode (some r) none f = (r.answer, r.references.map ResponseData.rag)) ∧
    (∀ (f : String), f ≠ "" → aggregatorNode none none f = (f, [])) ∧
    (∀ (r : RAGResult) (f : String), r.answer = "" → f ≠ "" →
      aggregatorNode (some r) none f = (f, r.references.map ResponseData.rag)) := by
  refine ⟨?_, ?_, ?_, ?_, ?_, ?_⟩
  · intro r c f h
    have h1 : (r.answer != "") = true := by rwa [bne_iff_ne]
    have h2 : ((r.answer ++ chartMarker) == "") = false := by
      rw [beq_eq_false_iff_ne]
      exact append_ne_empty_right _ _ (by decide)
    simp [aggregatorNode, h1, h2]
  · intro r c f h
    simp [aggregatorNode, h, chartPlaceholder]
  · intro c f
    simp [aggregatorNode, chartPlaceholder]
  · intro r f h
    have h1 : (r.answer == "") = false := by rwa [beq_eq_false_iff_ne]
    simp [aggregatorNode, h1]
  · intro f h
    have h1 : (f != "") = true := by rwa [bne_iff_ne]
    simp [aggregatorNode, h1]
  · intro r f hr hf
    have h1 : (f != "") = true := by rwa [bne_iff_ne]
    simp [aggregatorNode, hr, h1]

/-- C8 witness: the precedence equations applied at concrete inputs. -/
theorem aggregator_precedence_witness :
    ("ans" : String) ≠ "" ∧
    aggregatorNode (some ⟨"ans", []⟩) (some ⟨"bar", [], []⟩) "" =
      ("ans" ++ chartMarker, [ResponseData.chart ⟨"bar", [], []⟩]) :=
  ⟨by decide, aggregator_precedence.1 ⟨"ans", []⟩ ⟨"bar", [], []⟩ "" (by decide)⟩

/-! ## Claim C10: the non-streaming mode absorbs failures -/

/-- C10 (confirmed): when the workflow invocation throws, `processQuery`
yields exactly one chunk whose answer is "Error processing query: "
followed by the failure message with an empty data list, and
`processQuerySync` returns exactly that as its final response — the failure
is absorbed, never re-thrown, and distinguishable from a success only by
the answer text. -/
theorem processQuerySync_error_absorbed (m : String) :
    processQuery (.error m) = [⟨"Error processing query: " ++ m, []⟩] ∧
    processQuerySync (.error m) = ⟨"Error processing query: " ++ m, []⟩ := by
  refine ⟨rfl, ?_⟩
  unfold processQuerySync processQuery
  simp only [List.foldl_cons, List.foldl_nil]
  have hne : (("Error processing query: " ++ m) != "") = true := by
    rw [bne_iff_ne]
    exact append_ne_empty_left _ _ (by decide)
  simp [hne]

/-! ## Event-list helpers for the orchestrator claims -/

theorem nonTerm_nil : ∀ e ∈ ([] : List SSEEvent), e.isTerminal = false := by
  intro e he
  cases he

theorem nonTerm_single (a : SSEEvent) (ha : a.isTerminal = false) :
    ∀ e ∈ [a], e.isTerminal = false := by
  intro e he
  rw [List.mem_singleton] at he
  subst he
  exact ha

theorem nonTerm_cons (a : SSEEvent) (l : List SSEEvent) (ha : a.isTerminal = false)
    (hl : ∀ e ∈ l, e.isTerminal = false) : ∀ e ∈ a :: l, e.isTerminal = false := by
  intro e he
  rcases List.mem_cons.mp he with rfl | h
  · exact ha
  · exact hl e h

theorem nonTerm_append (l1 l2 : List SSEEvent)
    (h1 : ∀ e ∈ l1, e.isTerminal = false) (h2 : ∀ e ∈ l2, e.isTerminal = false) :
    ∀ e ∈ l1 ++ l2, e.isTerminal = false := by
  intro e he
  rcases List.mem_append.mp he with h | h
  · exact h1 e h
  · exact h2 e h

theorem nonTerm_ite (c : Prop) [Decidable c] (l : List SSEEvent)
    (hl : ∀ e ∈ l, e.isTerminal = false) :
    ∀ e ∈ (if c then l else []), e.isTerminal = false := by
  split
  · exact hl
  · exact nonTerm_nil

theorem nonTerm_token_map (l : List String) :
    ∀ e ∈ l.map SSEEvent.token, e.isTerminal = false := by
  intro e he
  rw [List.mem_map] at he
  obtain ⟨t, _, rfl⟩ := he
  rfl

/-- C1 (confirmed): every event sequence produced by the streaming entry
point ends in exactly one terminal event — a single `done` carrying the
collected data list or a single `error` carrying the failure message —
preceded only by non-terminal events, with nothing after it. -/
theorem stream_exactly_one_terminal (query : String) (imageUrl : Option String)
    (env : StreamOrchEnv) :
    ∃ pre t, processQueryStream query imageUrl env = pre ++ [t] ∧
      t.isTerminal = true ∧ ∀ e ∈ pre, e.isTerminal = false := by
  cases imageUrl with
  | some u =>
    simp only [processQueryStream]
    cases himg : env.imageResult with
    | error m =>
      refine ⟨[.thinking "Processing image...", .route imageDecision], .error m, ?_, rfl, ?_⟩
      · simp [imageDecision]
      · exact nonTerm_cons _ _ rfl (nonTerm_single _ rfl)
    | ok r =>
      refine ⟨[.thinking "Processing image...", .route imageDecision,
        .image r, .token (imageConfirmText query)],
        .done [ResponseData.image r.url r.prompt r.model], ?_, rfl, ?_⟩
      · simp [imageDecision]
      · exact nonTerm_cons _ _ rfl (nonTerm_cons _ _ rfl
          (nonTerm_cons _ _ rfl (nonTerm_single _ rfl)))
  | none =>
    simp only [processQueryStream]
    cases hd : routerNode query env with
    | error m =>
      refine ⟨[.thinking "Routing query..."], .error m, ?_, rfl, nonTerm_single _ rfl⟩
      simp
    | ok d =>
      by_cases hb : d.tools.head? = some "both"
      · simp only [hb]
        cases hs : ragSearch query env.search with
        | error m =>
          refine ⟨[.thinking "Routing query...", .route d], .error m, ?_, rfl,
            nonTerm_cons _ _ rfl (nonTerm_single _ rfl)⟩
          simp
        | ok sr =>
          cases hthr : (generateStream (env.streamInvoke sr.prompt)).thrown with
          | some m =>
            refine ⟨SSEEvent.thinking "Routing query..." :: SSEEvent.route d ::
              ((if 0 < sr.references.length then [SSEEvent.references sr.references] else []) ++
                (generateStream (env.streamInvoke sr.prompt)).emitted.map SSEEvent.token),
              .error m, ?_, rfl, ?_⟩
            · simp [hthr]
            · exact nonTerm_cons _ _ rfl (nonTerm_cons _ _ rfl
                (nonTerm_append _ _ (nonTerm_ite _ _ (nonTerm_single _ rfl))
                  (nonTerm_token_map _)))
          | none =>
            refine ⟨SSEEvent.thinking "Routing query..." :: SSEEvent.route d ::
              ((if 0 < sr.references.length then [SSEEvent.references sr.references] else []) ++
                ((generateStream (env.streamInvoke sr.prompt)).emitted.map SSEEvent.token ++
                  ((if 0 < sr.references.length then [SSEEvent.sources (sourcesText sr.references)] else []) ++
                    [SSEEvent.chart (chartExecute env.chartConfigs (some query))]))),
              .done ((if 0 < sr.references.length then sr.references.map ResponseData.rag else []) ++
                [ResponseData.chart (chartExecute env.chartConfigs (some query))]), ?_, rfl, ?_⟩
            · simp [hthr]
            · exact nonTerm_cons _ _ rfl (nonTerm_cons _ _ rfl
                (nonTerm_append _ _ (nonTerm_ite _ _ (nonTerm_single _ rfl))
                  (nonTerm_append _ _ (nonTerm_token_map _)
                    (nonTerm_append _ _ (nonTerm_ite _ _ (nonTerm_single _ rfl))
                      (nonTerm_single _ rfl)))))
      · by_cases hrag : d.tools.head? = some "rag"
        · simp only [hb, hrag]
          cases hs : ragSearch query env.search with
          | error m =>
            refine ⟨[.thinking "Routing query...", .route d], .error m, ?_, rfl,
              nonTerm_cons _ _ rfl (nonTerm_single _ rfl)⟩
            simp [hb]
          | ok sr =>
            cases hthr : (generateStream (env.streamInvoke sr.prompt)).thrown with
            | some m =>
              refine ⟨SSEEvent.thinking "Routing query..." :: SSEEvent.route d ::
                ((if 0 < sr.references.length then [SSEEvent.references sr.references] else []) ++
                  (generateStream (env.streamInvoke sr.prompt)).emitted.map SSEEvent.token),
                .error m, ?_, rfl, ?_⟩
              · simp [hb, hthr]
              · exact nonTerm_cons _ _ rfl (nonTerm_cons _ _ rfl
                  (nonTerm_append _ _ (nonTerm_ite _ _ (nonTerm_single _ rfl))
                    (nonTerm_token_map _)))
            | none =>
              refine ⟨SSEEvent.thinking "Routing query..." :: SSEEvent.route d ::
                ((if 0 < sr.references.length then [SSEEvent.references sr.references] else []) ++
                  ((generateStream (env.streamInvoke sr.prompt)).emitted.map SSEEvent.token ++
                    (if 0 < sr.references.length then [SSEEvent.sources (sourcesText sr.references)] else []))),
                .done (if 0 < sr.references.length then sr.references.map ResponseData.rag else []),
                ?_, rfl, ?_⟩
              · simp [hb, hthr]
              · exact nonTerm_cons _ _ rfl (nonTerm_cons _ _ rfl
                  (nonTerm_append _ _ (nonTerm_ite _ _ (nonTerm_single _ rfl))
                    (nonTerm_append _ _ (nonTerm_token_map _)
                      (nonTerm_ite _ _ (nonTerm_single _ rfl)))))
        · by_cases hchart : d.tools.head? = some "chart"
          · refine ⟨[.thinking "Routing query...", .route d,
              .chart (chartExecute env.chartConfigs (some query)), .token chartConfirmText],
              .done [ResponseData.chart (chartExecute env.chartConfigs (some query))], ?_, rfl, ?_⟩
            · simp [hb, hrag, hchart]
            · exact nonTerm_cons _ _ rfl (nonTerm_cons _ _ rfl
                (nonTerm_cons _ _ rfl (nonTerm_single _ rfl)))
          · by_cases himgT : d.tools.head? = some "image"
            · cases himg : env.imageResult with
              | error m =>
                refine ⟨[.thinking "Routing query...", .route d], .error m, ?_, rfl,
                  nonTerm_cons _ _ rfl (nonTerm_single _ rfl)⟩
                simp [hb, hrag, hchart, himgT]
              | ok r =>
                refine ⟨[.thinking "Routing query...", .route d, .image r,
                  .token (imageConfirmText query)],
                  .done [ResponseData.image r.url r.prompt r.model], ?_, rfl, ?_⟩
                · simp [hb, hrag, hchart, himgT]
                · exact nonTerm_cons _ _ rfl (nonTerm_cons _ _ rfl
                    (nonTerm_cons _ _ rfl (nonTerm_single _ rfl)))
            · cases hthr : (generateStream (env.streamInvoke (directPromptText query))).thrown with
              | some m =>
                refine ⟨SSEEvent.thinking "Routing query..." :: SSEEvent.route d ::
                  (generateStream (env.streamInvoke (directPromptText query))).emitted.map SSEEvent.token,
                  .error m, ?_, rfl, ?_⟩
                · simp [hb, hrag, hchart, himgT, hthr]
                · exact nonTerm_cons _ _ rfl (nonTerm_cons _ _ rfl (nonTerm_token_map _))
              | none =>
                refine ⟨SSEEvent.thinking "Routing query..." :: SSEEvent.route d ::
                  (generateStream (env.streamInvoke (directPromptText query))).emitted.map SSEEvent.token,
                  .done [], ?_, rfl, ?_⟩
                · simp [hb, hrag, hchart, himgT, hthr]
                · exact nonTerm_cons _ _ rfl (nonTerm_cons _ _ rfl (nonTerm_token_map _))

/-- C2 (confirmed): with an attached image URL the emitted route decision is
always `⟨[image], Image attached by user⟩`, and the whole event sequence is
unchanged under any replacement of the router-model oracle and the
JSON-parse oracle — the classifier is never consulted and cannot influence
the decision. -/
theorem image_attachment_override (query u : String) (env : StreamOrchEnv)
    (ri : Nat → Except String String) (rp : String → ParseOutcome) :
    (processQueryStream query (some u) env)[1]? = some (SSEEvent.route imageDecision) ∧
    processQueryStream query (some u)
        { env with routerInvoke := ri, routerParse := rp } =
      processQueryStream query (some u) env := by
  constructor
  · simp only [processQueryStream]
    cases himg : env.imageResult with
    | error m => simp [imageDecision]
    | ok r => simp [imageDecision]
  · rfl

/-- C6 (confirmed): for a compound-both decision that completes
successfully, the chart event is emitted after every other event of the
stream (none of which is a chart event), immediately followed by the
terminal done event whose payload lists the retrieval references (all of
the rag variant) before the chart entry; and the aggregator of the
non-streaming path likewise places retrieval references before the chart
entry, independent of how the two branches were executed. -/
theorem both_route_ordering :
    (∀ (query : String) (env : StreamOrchEnv) (d : ToolDecision) (sr : RAGSearchResult),
      routerNode query env = .ok d → d.tools.head? = some "both" →
      ragSearch query env.search = .ok sr →
      (generateStream (env.streamInvoke sr.prompt)).thrown = none →
      ∃ pre c refData,
        processQueryStream query none env =
          pre ++ [SSEEvent.chart c, SSEEvent.done (refData ++ [ResponseData.chart c])] ∧
        (∀ e ∈ pre, e.isChartEv = false ∧ e.isTerminal = false) ∧
        (∀ x ∈ refData, ∃ r, x = ResponseData.rag r)) ∧
    (∀ (r : RAGResult) (c : ChartConfig) (f : String),
      (aggregatorNode (some r) (some c) f).2 =
        r.references.map ResponseData.rag ++ [ResponseData.chart c]) := by
  constructor
  · intro query env d sr hd hboth hsr hthr
    simp only [processQueryStream, hd, hboth, hsr, hthr]
    by_cases hlen : 0 < sr.references.length
    · refine ⟨SSEEvent.thinking "Routing query..." :: SSEEvent.route d ::
        (SSEEvent.references sr.references ::
          ((generateStream (env.streamInvoke sr.prompt)).emitted.map SSEEvent.token ++
            [SSEEvent.sources (sourcesText sr.references)])),
        chartExecute env.chartConfigs (some query),
        sr.references.map ResponseData.rag, ?_, ?_, ?_⟩
      · simp [hlen, List.append_assoc]
      · intro e he
        rcases List.mem_cons.mp he with rfl | he
        · exact ⟨rfl, rfl⟩
        rcases List.mem_cons.mp he with rfl | he
        · exact ⟨rfl, rfl⟩
        rcases List.mem_cons.mp he with rfl | he
        · exact ⟨rfl, rfl⟩
        rcases List.mem_append.mp he with he | he
        · rw [List.mem_map] at he
          obtain ⟨t, _, rfl⟩ := he
          exact ⟨rfl, rfl⟩
        · rw [List.mem_singleton] at he
          subst he
          exact ⟨rfl, rfl⟩
      · intro x hx
        rw [List.mem_map] at hx
        obtain ⟨r0, _, rfl⟩ := hx
        exact ⟨r0, rfl⟩
    · refine ⟨SSEEvent.thinking "Routing query..." :: SSEEvent.route d ::
        (generateStream (env.streamInvoke sr.prompt)).emitted.map SSEEvent.token,
        chartExecute env.chartConfigs (some query), [], ?_, ?_, ?_⟩
      · simp [hlen, List.append_assoc]
      · intro e he
        rcases List.mem_cons.mp he with rfl | he
        · exact ⟨rfl, rfl⟩
        rcases List.mem_cons.mp he with rfl | he
        · exact ⟨rfl, rfl⟩
        rw [List.mem_map] at he
        obtain ⟨t, _, rfl⟩ := he
        exact ⟨rfl, rfl⟩
      · intro x hx
        cases hx
  · intro r c f
    simp [aggregatorNode]

/-- C6 witness: the ordering theorem applied to a concrete environment whose
similarity search returns one relevant candidate. -/
theorem both_route_ordering_witness :
    routerNode "q" bothEnv = .ok ⟨["both"], "r"⟩ ∧
    (⟨["both"], "r"⟩ : ToolDecision).tools.head? = some "both" ∧
    ragSearch "q" bothEnv.search = .ok bothSearchResult ∧
    (generateStream (bothEnv.streamInvoke bothSearchResult.prompt)).thrown = none ∧
    (∃ pre c refData,
      processQueryStream "q" none bothEnv =
        pre ++ [SSEEvent.chart c, SSEEvent.done (refData ++ [ResponseData.chart c])] ∧
      (∀ e ∈ pre, e.isChartEv = false ∧ e.isTerminal = false) ∧
      (∀ x ∈ refData, ∃ r, x = ResponseData.rag r)) :=
  ⟨by decide, rfl, rfl, rfl,
    both_route_ordering.1 "q" bothEnv ⟨["both"], "r"⟩ bothSearchResult (by decide) rfl rfl rfl⟩

end Agent
